import Mathlib

/-!
Verification of the quick-guessing core of the `cans` package
(`cans/guesser.py`) against its specification.

Modelling conventions:
* Python / numpy floats are embedded as rationals (`ℚ`); claims stated
  "within floating tolerance" become exact equalities over `ℚ`.
* Division follows the `ℚ` convention `x / 0 = 0`; every theorem that
  depends on a quotient carries an explicit nonzero-denominator
  hypothesis, mirroring the float code's implicit precondition.
* `cans/plate.py` and `cans/model.py` are not part of the analysed
  sources; the `Plate` and `Model` records below are modelled from the
  spec, and external computations (the ODE simulator, the nonlinear
  optimizer) are passed in as oracle functions.
* Fallible Python code (raised exceptions) is embedded as
  `Except String`.
-/

/-- Modelled from the spec: `PlateData` of `cans/plate.py` (not under
the analysed sources).  `c_meas` is the flattened time-series of
measured cell amounts whose last `no_cultures` entries are the
final-timepoint measurements, one per culture in index order;
`c_meas_obj` is the objective measurement vector whose last
`growers.length` entries are the final measured cell amounts of the
growing cultures; `growers`, `internals`, `edges`, `empties` are the
culture-role index collections. -/
structure Plate where
  no_cultures : ℕ
  c_meas : List ℚ
  c_meas_obj : List ℚ
  growers : List ℕ
  internals : List ℕ
  edges : List ℕ
  empties : List ℕ

/-- Modelled from the spec: `GrowthModelSpec` of `cans/model.py` (not
under the analysed sources): ordered species names, one
boundary-condition marker per species (the empty string standing for
Python-falsy "no boundary condition"), and the ordered parameter-name
list governing parameter-vector layout. -/
structure Model where
  species : List String
  species_bc : List String
  params : List String

/-- Python `xs[-n:]`: the last `n` elements of a list. -/
def lastN (n : ℕ) (xs : List ℚ) : List ℚ :=
  xs.drop (xs.length - n)

/-- Python `max(xs)` for nonempty `xs` (0 on `[]`, where Python raises). -/
def listMax : List ℚ → ℚ
  | [] => 0
  | x :: xs => xs.foldl max x

/-- Python `min(xs)` for nonempty `xs` (0 on `[]`, where Python raises). -/
def listMin : List ℚ → ℚ
  | [] => 0
  | x :: xs => xs.foldl min x

/-- Index of species `"N"` in the model's species list
(`model.species.index("N")` in the source). -/
def nIndex (model : Model) : ℕ :=
  List.indexOf "N" model.species

/-- Truthiness of `model.species_bc[N_index]`: the nutrient species has
a boundary condition iff its marker string is nonempty. -/
def nBc (model : Model) : Bool :=
  (model.species_bc.getD (nIndex model) "") ≠ ""

/-- `N_tot` of `Guesser._guess_init_N`: the sum of the final measured
cell amounts over growing cultures,
`np.sum(plate.c_meas_obj[-len(plate.growers):])`. -/
def nTot (plate : Plate) : ℚ :=
  (lastN plate.growers.length plate.c_meas_obj).sum

/-- `Guesser._guess_init_N` of `cans/guesser.py`.  `areaRat` is the
guesser's `area_ratio` field, `none` embedding Python `None` (whose use
in arithmetic raises a `TypeError`, embedded as `Except.error`). -/
def guess_init_N (plate : Plate) (model : Model) (areaRat : Option ℚ) :
    Except String (List ℚ) :=
  let N_tot := nTot plate
  if nBc model then
    match areaRat with
    | none => Except.error "TypeError: unsupported operand type for None"
    | some r =>
      let ni : ℚ := plate.internals.length
      let ne : ℚ := plate.edges.length
      let Ni := N_tot / (ni + ne * r)
      let Ne := (N_tot - ni * Ni) / ne
      Except.ok [Ni, Ne]
  else
    Except.ok [N_tot / (plate.no_cultures : ℚ)]

/-- `Guesser._guess_init_C` of `cans/guesser.py`: the maximum final
measurement times the guesser's `C_ratio` field (`cRat` here, `none`
embedding Python `None`). -/
def guess_init_C (plate : Plate) (cRat : Option ℚ) :
    Except String (List ℚ) :=
  match cRat with
  | none => Except.error "TypeError: unsupported operand type for None"
  | some r => Except.ok [listMax (lastN plate.no_cultures plate.c_meas) * r]

/-- C1: the nutrient initial-amount guess satisfies the conservation
laws exactly.  Without a boundary condition on the nutrient species,
`_guess_init_N` returns `[N_all]` with
`N_all × total_culture_count = N_tot` (for any `area_ratio`, which is
not read); with a boundary condition and a supplied `area_ratio` `r`,
provided `ne > 0` and `ni + ne·r ≠ 0`, it returns `[Ni, Ne]` with
`ni·Ni + ne·Ne = N_tot` and `Ne = Ni·r`. -/
theorem guess_init_N_conservation (plate : Plate) (model : Model) (r : ℚ)
    (hcult : 0 < plate.no_cultures)
    (hne : nBc model = true → 0 < plate.edges.length)
    (hden : nBc model = true →
      (plate.internals.length : ℚ) + (plate.edges.length : ℚ) * r ≠ 0) :
    (nBc model = false → ∀ areaRat,
      guess_init_N plate model areaRat =
        Except.ok [nTot plate / (plate.no_cultures : ℚ)] ∧
      nTot plate / (plate.no_cultures : ℚ) * (plate.no_cultures : ℚ) =
        nTot plate) ∧
    (nBc model = true → ∃ Ni Ne,
      guess_init_N plate model (some r) = Except.ok [Ni, Ne] ∧
      (plate.internals.length : ℚ) * Ni + (plate.edges.length : ℚ) * Ne =
        nTot plate ∧
      Ne = Ni * r) := by
  constructor
  · intro hbc areaRat
    constructor
    · simp [guess_init_N, hbc]
    · have hn : ((plate.no_cultures : ℚ)) ≠ 0 :=
        Nat.cast_ne_zero.mpr hcult.ne'
      exact div_mul_cancel₀ _ hn
  · intro hbc
    have hne' : ((plate.edges.length : ℚ)) ≠ 0 := by
      exact_mod_cast Nat.cast_ne_zero.mpr (hne hbc).ne'
    have hden' := hden hbc
    refine ⟨nTot plate / ((plate.internals.length : ℚ) +
      (plate.edges.length : ℚ) * r),
      (nTot plate - (plate.internals.length : ℚ) *
        (nTot plate / ((plate.internals.length : ℚ) +
          (plate.edges.length : ℚ) * r))) / (plate.edges.length : ℚ),
      ?_, ?_, ?_⟩
    · simp [guess_init_N, hbc]
    · field_simp
      ring
    · field_simp
      ring

/-- Witness for C1 at a concrete plate and dual-nutrient model. -/
theorem guess_init_N_conservation_witness :
    ∃ Ni Ne,
      guess_init_N
        { no_cultures := 4, c_meas := [1, 2, 3, 4], c_meas_obj := [1, 2, 3, 4],
          growers := [0, 1, 2, 3], internals := [0], edges := [1, 2, 3],
          empties := [] }
        { species := ["C", "N"], species_bc := ["", "N_0"],
          params := ["C_0", "N_0", "NE_0", "kn", "b"] } (some 2) =
        Except.ok [Ni, Ne] ∧
      (1 : ℚ) * Ni + (3 : ℚ) * Ne = 10 ∧ Ne = Ni * 2 := by
  have h := guess_init_N_conservation
    { no_cultures := 4, c_meas := [1, 2, 3, 4], c_meas_obj := [1, 2, 3, 4],
      growers := [0, 1, 2, 3], internals := [0], edges := [1, 2, 3],
      empties := [] }
    { species := ["C", "N"], species_bc := ["", "N_0"],
      params := ["C_0", "N_0", "NE_0", "kn", "b"] } 2
    (by decide) (by intro _; decide) (by intro _; norm_num [nBc, nIndex])
  obtain ⟨Ni, Ne, h1, h2, h3⟩ := h.2 (by decide)
  refine ⟨Ni, Ne, h1, ?_, h3⟩
  have h2' : (1 : ℚ) * Ni + 3 * Ne = nTot
      { no_cultures := 4, c_meas := [1, 2, 3, 4], c_meas_obj := [1, 2, 3, 4],
        growers := [0, 1, 2, 3], internals := [0], edges := [1, 2, 3],
        empties := [] } := by simpa using h2
  rw [h2']
  norm_num [nTot, lastN]

/-- Index of the diffusion-rate parameter `"kn"` in the model's
parameter list (`model.params.index("kn")` in the source). -/
def knIndex (model : Model) : ℕ :=
  List.indexOf "kn" model.params

/-- `np.var`: population variance, the mean of squared deviations from
the mean. -/
def npVar (xs : List ℚ) : ℚ :=
  let n : ℚ := xs.length
  let m := xs.sum / n
  (xs.map (fun x => (x - m) ^ 2)).sum / n

/-- `np.linspace start stop num` with the endpoint included:
`num` evenly spaced points from `start` to `stop`. -/
def linspace (start stop : ℚ) (num : ℕ) : List ℚ :=
  if num = 1 then [start]
  else (List.range num).map (fun i => start + i * (stop - start) / ((num : ℚ) - 1))

/-- Modelled from the spec: the least-squares solution
`np.linalg.lstsq` returns for the two-column design `A = [xs, 1]`
(column of sweep values and column of ones) — written in the
normal-equations closed form, which is the unique least-squares
solution exactly when `n·Σx² − (Σx)² ≠ 0` (the full-rank case). -/
def lstsq2 (xs ys : List ℚ) : ℚ × ℚ :=
  let n : ℚ := xs.length
  let Sx := xs.sum
  let Sy := ys.sum
  let Sxx := (xs.map (fun x => x ^ 2)).sum
  let Sxy := (List.zipWith (· * ·) xs ys).sum
  let m := (n * Sxy - Sx * Sy) / (n * Sxx - Sx ^ 2)
  let c := (Sy - m * Sx) / n
  (m, c)

/-- The variance samples swept by `Guesser.guess_kn`: for each
candidate `kn` the code writes `kn` into the parameter vector,
simulates the plate, and takes `np.var` of the final `no_cultures`
simulated measurements.  `sim` is the external simulator
(`sim_plate.set_sim_data(self.model)` of `cans/plate.py`, modelled
from the spec as a function from the parameter vector to the simulated
measurement series). -/
def knVars (plate : Plate) (model : Model) (sim : List ℚ → List ℚ)
    (params : List ℚ) (kns : List ℚ) : List ℚ :=
  kns.map (fun kn =>
    npVar (lastN plate.no_cultures (sim (params.set (knIndex model) kn))))

/-- `Guesser.guess_kn` of `cans/guesser.py`: sweep `kn` over
`linspace start stop num`, record the simulated final-measurement
variances, fit a least-squares line, invert it at the measured
variance, write the result at the `kn` index and return the vector
clipped below at zero (`params.clip(min=0.0)`). -/
def guess_kn (plate : Plate) (model : Model) (sim : List ℚ → List ℚ)
    (start stop : ℚ) (num : ℕ) (params : List ℚ) : List ℚ :=
  let C_f_var_true := npVar (lastN plate.no_cultures plate.c_meas)
  let kns := linspace start stop num
  let C_f_vars := knVars plate model sim params kns
  let mc := lstsq2 kns C_f_vars
  let kn_guess := (C_f_var_true - mc.2) / mc.1
  (params.set (knIndex model) kn_guess).map (fun x => max x 0)

theorem sum_map_linear (m0 c0 : ℚ) (xs : List ℚ) :
    (xs.map (fun x => m0 * x + c0)).sum = m0 * xs.sum + c0 * xs.length := by
  induction xs with
  | nil => simp
  | cons a l ih =>
    simp only [List.map_cons, List.sum_cons, ih, List.length_cons]
    push_cast
    ring

theorem sum_zip_mul_linear (m0 c0 : ℚ) (xs : List ℚ) :
    (List.zipWith (· * ·) xs (xs.map (fun x => m0 * x + c0))).sum =
      m0 * (xs.map (fun x => x ^ 2)).sum + c0 * xs.sum := by
  induction xs with
  | nil => simp
  | cons a l ih =>
    simp only [List.map_cons, List.zipWith_cons_cons, List.sum_cons, ih]
    ring

/-- On data generated exactly by the line `y = m0·x + c0`, the
least-squares fit recovers `(m0, c0)` whenever the design is full
rank. -/
theorem lstsq2_exact (xs : List ℚ) (m0 c0 : ℚ)
    (hden : (xs.length : ℚ) * (xs.map (fun x => x ^ 2)).sum - xs.sum ^ 2 ≠ 0) :
    lstsq2 xs (xs.map (fun x => m0 * x + c0)) = (m0, c0) := by
  have hn : ((xs.length : ℚ)) ≠ 0 := by
    cases xs with
    | nil => exact absurd (by simp) hden
    | cons a l =>
      exact Nat.cast_ne_zero.mpr (Nat.succ_ne_zero _)
  unfold lstsq2
  simp only [List.length_map, sum_map_linear, sum_zip_mul_linear]
  have hm : ((xs.length : ℚ) * (m0 * (xs.map (fun x => x ^ 2)).sum + c0 * xs.sum) -
      xs.sum * (m0 * xs.sum + c0 * xs.length)) /
        ((xs.length : ℚ) * (xs.map (fun x => x ^ 2)).sum - xs.sum ^ 2) = m0 := by
    have h1 : (xs.length : ℚ) * (m0 * (xs.map (fun x => x ^ 2)).sum + c0 * xs.sum) -
        xs.sum * (m0 * xs.sum + c0 * xs.length) =
        m0 * ((xs.length : ℚ) * (xs.map (fun x => x ^ 2)).sum - xs.sum ^ 2) := by
      ring
    rw [h1, mul_div_assoc, div_self hden, mul_one]
  rw [hm]
  have hc : (m0 * xs.sum + c0 * (xs.length : ℚ) - m0 * xs.sum) = c0 * xs.length := by
    ring
  rw [hc, mul_div_assoc, div_self hn, mul_one]

/-- C2: `guess_kn` fits an ordinary-least-squares line through the
`(kn, simulated variance)` points and sets the `kn` entry of the
returned vector to `max 0 ((observed variance − c)/m)`.  When the
swept variance samples follow the exact linear law
`variance = m0·kn + c0` (with a full-rank sweep and `m0 ≠ 0`), the
fitted line is `(m0, c0)` and the recovered `kn` entry is
`max 0 ((observed variance − c0)/m0)` — the inverted line clipped at
zero. -/
theorem guess_kn_ols (plate : Plate) (model : Model)
    (sim : List ℚ → List ℚ) (start stop : ℚ) (num : ℕ)
    (params : List ℚ) (m0 c0 : ℚ)
    (hk : knIndex model < params.length)
    (hlin : ∀ kn ∈ linspace start stop num,
      npVar (lastN plate.no_cultures (sim (params.set (knIndex model) kn))) =
        m0 * kn + c0)
    (hden : ((linspace start stop num).length : ℚ) *
        ((linspace start stop num).map (fun x => x ^ 2)).sum -
        (linspace start stop num).sum ^ 2 ≠ 0)
    (hm0 : m0 ≠ 0) :
    lstsq2 (linspace start stop num)
        (knVars plate model sim params (linspace start stop num)) = (m0, c0) ∧
    (guess_kn plate model sim start stop num params)[knIndex model]? =
      some (max ((npVar (lastN plate.no_cultures plate.c_meas) - c0) / m0) 0) := by
  have hvars : knVars plate model sim params (linspace start stop num) =
      (linspace start stop num).map (fun x => m0 * x + c0) :=
    List.map_congr_left hlin
  have hfit : lstsq2 (linspace start stop num)
      (knVars plate model sim params (linspace start stop num)) = (m0, c0) := by
    rw [hvars]
    exact lstsq2_exact _ _ _ hden
  refine ⟨hfit, ?_⟩
  unfold guess_kn
  rw [List.getElem?_map, hfit,
    List.getElem?_set_self (by simpa using hk)]
  rfl

/-- A concrete two-culture plate used in witnesses. -/
def exPlate2 : Plate :=
  { no_cultures := 2, c_meas := [1, 3], c_meas_obj := [1, 3],
    growers := [0, 1], internals := [], edges := [0, 1], empties := [] }

/-- A concrete single-nutrient model used in witnesses. -/
def exModel1 : Model :=
  { species := ["C", "N"], species_bc := ["", ""],
    params := ["C_0", "N_0", "kn", "b"] }

/-- A concrete simulator oracle used in witnesses; its final
measurements have variance `(kn + 1)²` at the swept `kn` values. -/
def exSim : List ℚ → List ℚ :=
  fun v => [-(v.getD 2 0 + 1), v.getD 2 0 + 1]

/-- Witness for C2 at a concrete plate, model, simulator and sweep. -/
theorem guess_kn_ols_witness :
    lstsq2 (linspace 0 1 2)
        (knVars exPlate2 exModel1 exSim [5, 7, 100, 9] (linspace 0 1 2)) =
      (3, 1) ∧
    (guess_kn exPlate2 exModel1 exSim 0 1 2 [5, 7, 100, 9])[knIndex exModel1]? =
      some (max ((npVar (lastN 2 [1, 3]) - 1) / 3) 0) :=
  guess_kn_ols exPlate2 exModel1 exSim 0 1 2 _ 3 1 (by decide)
    (by
      intro kn hkn
      have hki : knIndex exModel1 = 2 := rfl
      have h2 : kn = 0 ∨ kn = 1 := by
        norm_num [linspace, List.range_succ] at hkn
        exact hkn
      rcases h2 with h | h <;> subst h <;>
        norm_num [npVar, lastN, hki, exSim, exPlate2])
    (by norm_num [linspace, List.range_succ])
    (by norm_num)

/-- Counterexample to C6: `guess_kn` does not leave every non-`kn`
entry of the vector unchanged — the final `params.clip(min=0.0)` clips
every entry at zero, so the negative cell-amount entry at index 0 of
the input comes back as `0`. -/
theorem guess_kn_frame_cex :
    (0 : ℕ) ≠ knIndex exModel1 ∧
    ([(-1 : ℚ), 0, 100, 0])[0]? = some (-1 : ℚ) ∧
    (guess_kn exPlate2 exModel1 (fun _ => []) 0 1 2 [-1, 0, 100, 0])[0]? =
      some (0 : ℚ) := by
  refine ⟨by decide, rfl, ?_⟩
  have hki : knIndex exModel1 = 2 := rfl
  unfold guess_kn
  rw [List.getElem?_map, hki, List.getElem?_set_ne (by omega)]
  norm_num

/-- C6 amended: `guess_kn` changes only the `kn` entry of the vector it
returns, except that the final clip at zero applies to every entry:
each entry at an index other than the `kn` index equals
`max (input entry) 0`, hence equals the input entry whenever that entry
is nonnegative. -/
theorem guess_kn_frame (plate : Plate) (model : Model)
    (sim : List ℚ → List ℚ) (start stop : ℚ) (num : ℕ)
    (params : List ℚ) (i : ℕ) (hi : i ≠ knIndex model) :
    (guess_kn plate model sim start stop num params)[i]? =
      (params[i]?).map (fun x => max x 0) := by
  unfold guess_kn
  rw [List.getElem?_map, List.getElem?_set_ne (by omega)]

/-- Witness for C6 (amended) at a concrete input. -/
theorem guess_kn_frame_witness :
    (guess_kn exPlate2 exModel1 (fun _ => []) 0 1 2 [-1, 2, 100, 4])[1]? =
      (([(-1 : ℚ), 2, 100, 4])[1]?).map (fun x => max x 0) :=
  guess_kn_frame exPlate2 exModel1 (fun _ => []) 0 1 2 _ 1 (by decide)

/-- Numpy fancy-index assignment into a zero vector:
`holder = np.zeros(n); holder[idxs] = vals` — starting from `n` zeros,
write `vals[j]` at position `idxs[j]` for each `j` in order. -/
def scatter (n : ℕ) (idxs : List ℕ) (vals : List ℚ) : List ℚ :=
  (idxs.zip vals).foldl (fun a p => a.set p.1 p.2) (List.replicate n 0)

/-- Lines 328–337 of `cans/guesser.py` (`Guesser._process_quick_ests`):
extract the growth-rate column of the per-growing-culture estimate
matrix, optionally clip it at `3 × b_guess` (`np.clip` with a `max`
bound), and scatter it into a zero vector with one entry per culture,
leaving positions of non-growing cultures at zero. -/
def bEsts (plate : Plate) (b_index : ℕ) (all_ests : List (List ℚ))
    (clip : Bool) (b_guess : ℚ) : List ℚ :=
  let b0 := all_ests.map (fun row => row.getD b_index 0)
  let b1 := if clip then b0.map (fun x => min x (3 * b_guess)) else b0
  scatter plate.no_cultures plate.growers b1

/-- Stable insertion of `x` into a list sorted by ascending `key`:
`x` goes in front of the first element with a strictly greater key,
after all elements with an equal key. -/
def insertKey {α : Type} (key : α → ℚ) (x : α) : List α → List α
  | [] => [x]
  | y :: ys => if key x < key y then x :: y :: ys else y :: insertKey key x ys

/-- Stable ascending sort by `key` (insertion sort, embedding Python's
stable `sorted`; for the tuple sort of the source this is faithful
whenever the keys are distinct). -/
def sortKey {α : Type} (key : α → ℚ) (l : List α) : List α :=
  l.foldr (insertKey key) []

/-- `np.median`: the middle value of the sorted data, or the mean of
the two middle values when the count is even. -/
def npMedian (xs : List ℚ) : ℚ :=
  let s := sortKey id xs
  let n := s.length
  if n % 2 = 1 then s.getD (n / 2) 0
  else (s.getD (n / 2 - 1) 0 + s.getD (n / 2) 0) / 2

/-- `Guesser._get_top_half_C_f_ests` of `cans/guesser.py`: zip the
final measurements of all cultures with the estimate rows (`zip`
truncating to the shorter list, as in Python), sort the pairs by
measured final cell amount (Python's tuple sort, faithfully embedded
for distinct measurement keys), and drop the lowest
`no_cultures // 2` of them. -/
def topHalfCfEsts (plate : Plate) (all_ests : List (List ℚ)) :
    List (List ℚ) :=
  let C_fs := lastN plate.no_cultures plate.c_meas
  let sorted := sortKey Prod.fst (C_fs.zip all_ests)
  (sorted.map Prod.snd).drop (plate.no_cultures / 2)

/-- `Guesser._process_quick_ests` of `cans/guesser.py`.  `all_ests` is
the matrix of estimate vectors read back from the growing cultures'
stored fit results, `b_index` the growth-rate index of the quick-fit
model, `nan` the `np.nan` placeholder value inserted at the `kn`
position.  A `C_0_handling` string other than the three recognised ones
leaves Python's `C_0_guess` unbound and raises a `NameError` at the
subsequent `np.concatenate`. -/
def processQuickEsts (plate : Plate) (model : Model) (b_index : ℕ)
    (all_ests : List (List ℚ)) (clip : Bool) (b_guess : ℚ)
    (C_0_handling : String) (plate_lvl : Option (List ℚ))
    (cRat areaRat : Option ℚ) (nan : ℚ) : Except String (List ℚ) :=
  let b := bEsts plate b_index all_ests clip b_guess
  match plate_lvl with
  | some pl => Except.ok (pl ++ b)
  | none => do
    let C_0_guess ←
      if C_0_handling = "first_guess" then guess_init_C plate cRat
      else if C_0_handling = "median" then
        Except.ok [npMedian (all_ests.map (fun row => row.getD 0 0))]
      else if C_0_handling = "top_half" then
        Except.ok [npMedian ((topHalfCfEsts plate all_ests).map
          (fun row => row.getD 0 0))]
      else Except.error "NameError: C_0_guess referenced before assignment"
    let N_0_guess ← guess_init_N plate model areaRat
    let new_guess := C_0_guess ++ N_0_guess ++ b
    return new_guess.insertIdx (knIndex model) nan

theorem foldl_set_length (ps : List (ℕ × ℚ)) (acc : List ℚ) :
    (ps.foldl (fun a p => a.set p.1 p.2) acc).length = acc.length := by
  induction ps generalizing acc with
  | nil => rfl
  | cons p ps ih => simp [ih, List.length_set]

theorem foldl_set_getD_ne (ps : List (ℕ × ℚ)) (acc : List ℚ) (i : ℕ)
    (h : ∀ p ∈ ps, p.1 ≠ i) :
    (ps.foldl (fun a p => a.set p.1 p.2) acc).getD i 0 = acc.getD i 0 := by
  induction ps generalizing acc with
  | nil => rfl
  | cons p ps ih =>
    rw [List.foldl_cons, ih _ (fun q hq => h q (List.mem_cons_of_mem _ hq))]
    rw [List.getD_eq_getElem?_getD, List.getD_eq_getElem?_getD,
      List.getElem?_set_ne (h p (List.mem_cons_self _ _))]

theorem mem_foldl_set (ps : List (ℕ × ℚ)) (acc : List ℚ) (x : ℚ)
    (hx : x ∈ ps.foldl (fun a p => a.set p.1 p.2) acc) :
    x ∈ acc ∨ x ∈ ps.map Prod.snd := by
  induction ps generalizing acc with
  | nil => exact Or.inl hx
  | cons p ps ih =>
    rcases ih _ hx with h | h
    · rcases List.mem_or_eq_of_mem_set h with h' | h'
      · exact Or.inl h'
      · exact Or.inr (by simp [h'])
    · exact Or.inr (List.mem_cons_of_mem _ h)

/-- C3: the aggregated growth-rate sub-vector has exactly one entry per
culture, is zero at every non-growing (empty) culture position, and —
when clipping is enabled — every entry is at most `3 × b_guess`.  In
the supplied-plate-level case the aggregated parameter vector is
exactly the plate-level parameters followed by this sub-vector. -/
theorem b_ests_spec (plate : Plate) (model : Model) (b_index : ℕ)
    (all_ests : List (List ℚ)) (clip : Bool) (b_guess : ℚ)
    (cRat areaRat : Option ℚ) (nan : ℚ)
    (hdisj : ∀ i ∈ plate.empties, i ∉ plate.growers)
    (hb : 0 ≤ b_guess) :
    (bEsts plate b_index all_ests clip b_guess).length = plate.no_cultures ∧
    (∀ i ∈ plate.empties,
      (bEsts plate b_index all_ests clip b_guess).getD i 0 = 0) ∧
    (clip = true → ∀ x ∈ bEsts plate b_index all_ests clip b_guess,
      x ≤ 3 * b_guess) ∧
    (∀ pl C_0_handling,
      processQuickEsts plate model b_index all_ests clip b_guess
          C_0_handling (some pl) cRat areaRat nan =
        Except.ok (pl ++ bEsts plate b_index all_ests clip b_guess)) := by
  refine ⟨?_, ?_, ?_, ?_⟩
  · unfold bEsts scatter
    rw [foldl_set_length, List.length_replicate]
  · intro i hi
    unfold bEsts scatter
    rw [foldl_set_getD_ne]
    · simp [List.getD_eq_getElem?_getD]
    · intro p hp
      have := (List.of_mem_zip hp).1
      intro hcontra
      exact hdisj i hi (hcontra ▸ this)
  · intro hclip x hx
    subst hclip
    unfold bEsts scatter at hx
    rcases mem_foldl_set _ _ _ hx with h | h
    · have : x = 0 := List.eq_of_mem_replicate h
      subst this
      linarith
    · obtain ⟨p, hp, hpx⟩ := List.mem_map.mp h
      have hv := (List.of_mem_zip hp).2
      simp only [if_true] at hv
      obtain ⟨y, _, hy⟩ := List.mem_map.mp hv
      rw [← hpx, ← hy]
      exact min_le_right _ _
  · intro pl C_0_handling
    rfl

/-- A concrete three-culture plate with one empty culture, used in
witnesses and counterexamples. -/
def exPlate3 : Plate :=
  { no_cultures := 3, c_meas := [5, 1, 10], c_meas_obj := [5, 10],
    growers := [0, 2], internals := [], edges := [0, 1, 2],
    empties := [1] }

/-- Witness for C3 at a concrete plate and estimate matrix. -/
theorem b_ests_spec_witness :
    (bEsts exPlate3 1 [[1/10, 5], [1/5, 9]] true 2).length =
        exPlate3.no_cultures ∧
    (∀ i ∈ exPlate3.empties,
      (bEsts exPlate3 1 [[1/10, 5], [1/5, 9]] true 2).getD i 0 = 0) ∧
    (true = true → ∀ x ∈ bEsts exPlate3 1 [[1/10, 5], [1/5, 9]] true 2,
      x ≤ 3 * 2) ∧
    (∀ pl C_0_handling,
      processQuickEsts exPlate3 exModel1 1 [[1/10, 5], [1/5, 9]] true 2
          C_0_handling (some pl) none none 0 =
        Except.ok (pl ++ bEsts exPlate3 1 [[1/10, 5], [1/5, 9]] true 2)) :=
  b_ests_spec exPlate3 exModel1 1 [[1/10, 5], [1/5, 9]] true 2 none none 0
    (by decide) (by norm_num)

/-- C7 (code defect exhibited at a failing input): on `exPlate3` the
final measurements are `[5, 1, 10]`, culture 1 is empty, and the
estimate rows `[[20], [30]]` belong to the growing cultures 0 and 2.
The larger half of the three cultures with the highest final measured
cell amounts is cultures 2 and 0 (two cultures), so the `top_half`
selection should return both estimate rows — at least the row `[30]`
of culture 2, the highest-yield culture.  Instead the zip misaligns
culture 2's row with empty culture 1's measurement and the code
returns only `[[20]]`: one row instead of `⌈3/2⌉ = 2`, excluding the
highest-yield culture's estimate. -/
theorem top_half_code_defect :
    topHalfCfEsts exPlate3 [[20], [30]] = [[20]] ∧
    (topHalfCfEsts exPlate3 [[20], [30]]).length ≠
      (exPlate3.no_cultures + 1) / 2 ∧
    [(30 : ℚ)] ∉ topHalfCfEsts exPlate3 [[20], [30]] := by
  refine ⟨?_, ?_, ?_⟩ <;>
    norm_num [topHalfCfEsts, sortKey, insertKey, lastN, exPlate3]

/-- The culture indices `Guesser.quick_fit_log_eq` performs a
per-culture fit for (cultures embedded by index): the fitting loop runs
over `zip(log_eq_guesses, plate.cultures)`, where `log_eq_guesses` has
one entry per final measurement, so the zip pairs every culture with a
guess — empty cultures included. -/
def logEqFitCultures (plate : Plate) : List ℕ :=
  ((lastN plate.no_cultures plate.c_meas).zip
    (List.range plate.no_cultures)).map Prod.snd

/-- The culture indices `Guesser.quick_fit_imag_neighs` performs a
per-culture fit for: the loop enumerates all cultures and skips
(`continue`) the members of `plate.empties`, storing no fit result for
them. -/
def imagNeighFitCultures (plate : Plate) : List ℕ :=
  (List.range plate.no_cultures).filter (fun i => ! plate.empties.contains i)

/-- Counterexample to C5: on the concrete plate `exPlate3` the
logistic-equivalent stage fits culture 1 even though it is empty and
not a grower, so the stage does not fit exactly the growing
cultures. -/
theorem quick_fit_log_eq_cultures_cex :
    1 ∈ logEqFitCultures exPlate3 ∧ 1 ∉ exPlate3.growers ∧
    1 ∈ exPlate3.empties := by
  refine ⟨?_, by decide, by decide⟩
  norm_num [logEqFitCultures, lastN, exPlate3, List.range_succ]

/-- C5 amended: the logistic-equivalent stage performs a per-culture
fit for every culture, empty ones included; the imaginary-neighbour
stage skips empty cultures and fits exactly the growing (non-empty)
cultures, storing no fit result for empties. -/
theorem quick_fit_stage_cultures (plate : Plate)
    (hlen : plate.no_cultures ≤ plate.c_meas.length)
    (hpart : ∀ i,
      i ∈ plate.growers ↔ i < plate.no_cultures ∧ i ∉ plate.empties) :
    logEqFitCultures plate = List.range plate.no_cultures ∧
    ∀ i, i ∈ imagNeighFitCultures plate ↔ i ∈ plate.growers := by
  constructor
  · unfold logEqFitCultures
    apply List.map_snd_zip
    simp [lastN, List.length_drop]
    omega
  · intro i
    rw [hpart i]
    simp [imagNeighFitCultures, List.mem_filter]

/-- Witness for C5 (amended) at the concrete plate `exPlate3`. -/
theorem quick_fit_stage_cultures_witness :
    logEqFitCultures exPlate3 = List.range exPlate3.no_cultures ∧
    ∀ i, i ∈ imagNeighFitCultures exPlate3 ↔ i ∈ exPlate3.growers :=
  quick_fit_stage_cultures exPlate3 (by decide)
    (by intro i; simp [exPlate3]; omega)

/-- A guess value lies within a bound pair; an upper bound of `none`
embeds Python's `None` (unbounded). -/
def boundOK (g : ℚ) (b : ℚ × Option ℚ) : Prop :=
  b.1 ≤ g ∧ ∀ u, b.2 = some u → g ≤ u

/-- `Guesser._bound_init_amounts` of `cans/guesser.py`: the
cell-amount bound `(C0/C_doubt, C0·C_doubt)`, then either the
asymmetric single-nutrient bound `(0.9·N0, N_doubt·N0)` or the two
symmetric divide/multiply dual-nutrient bounds. -/
def bound_init_amounts (model : Model) (guess : List ℚ)
    (C_doubt N_doubt : ℚ) : List (ℚ × Option ℚ) :=
  let b0 := (guess.getD 0 0 / C_doubt, some (guess.getD 0 0 * C_doubt))
  if ! nBc model then
    [b0, (guess.getD 1 0 * (9 / 10), some (guess.getD 1 0 * N_doubt))]
  else
    [b0, (guess.getD 1 0 / N_doubt, some (guess.getD 1 0 * N_doubt)),
      (guess.getD 2 0 / N_doubt, some (guess.getD 2 0 * N_doubt))]

/-- `Guesser.get_bounds` of `cans/guesser.py`: the initial-amount
bounds, then `(0, kn_max)` for the diffusion rate, then `(0, None)`
per culture for the growth rates. -/
def get_bounds (plate : Plate) (model : Model) (params : List ℚ)
    (C_doubt N_doubt kn_max : ℚ) : List (ℚ × Option ℚ) :=
  bound_init_amounts model params C_doubt N_doubt ++
    [(0, some kn_max)] ++
    List.replicate plate.no_cultures (0, none)

theorem boundOK_div_mul (g d : ℚ) (hg : 0 ≤ g) (hd : 1 ≤ d) :
    boundOK g (g / d, some (g * d)) := by
  refine ⟨div_le_self hg hd, ?_⟩
  intro u hu
  cases hu
  exact le_mul_of_one_le_right hg hd

theorem boundOK_lower_zero (g : ℚ) (hg : 0 ≤ g) :
    boundOK g (0, none) := by
  exact ⟨hg, by intro u hu; cases hu⟩

theorem forall₂_replicate_b_bounds (bs : List ℚ) (h : ∀ b ∈ bs, 0 ≤ b) :
    List.Forall₂ boundOK bs (List.replicate bs.length ((0 : ℚ), none)) := by
  induction bs with
  | nil => exact List.Forall₂.nil
  | cons b bs ih =>
    exact List.Forall₂.cons
      (boundOK_lower_zero b (h b (List.mem_cons_self _ _)))
      (ih (fun x hx => h x (List.mem_cons_of_mem _ hx)))

/-- C4: for a guess vector `[C0, N0(, Ne), kn, b_1…b_k]` with doubt
factors at least 1, nonnegative amount and growth-rate guesses and a
kn guess in `[0, kn_max]`, every bound built by `get_bounds` satisfies
`lower ≤ corresponding guess ≤ upper`, position by position (so in
particular there is exactly one bound per parameter position). -/
theorem get_bounds_le (plate : Plate) (model : Model) (guess : List ℚ)
    (C0 kn : ℚ) (Ns bs : List ℚ) (Cd Nd knm : ℚ)
    (hg : guess = C0 :: Ns ++ kn :: bs)
    (hNs : Ns.length = if nBc model then 2 else 1)
    (hCd : 1 ≤ Cd) (hNd : 1 ≤ Nd) (hC0 : 0 ≤ C0)
    (hNsPos : ∀ x ∈ Ns, 0 ≤ x)
    (hkn : 0 ≤ kn) (hknm : kn ≤ knm) (hbs : ∀ b ∈ bs, 0 ≤ b)
    (hblen : bs.length = plate.no_cultures) :
    List.Forall₂ boundOK guess (get_bounds plate model guess Cd Nd knm) := by
  have hknOK : boundOK kn (0, some knm) := by
    refine ⟨hkn, ?_⟩
    intro u hu
    cases hu
    exact hknm
  cases hbc : nBc model with
  | false =>
    rw [hbc] at hNs
    norm_num at hNs
    obtain ⟨N0, hN0⟩ := List.length_eq_one.mp hNs
    subst hN0
    subst hg
    have hN0pos : 0 ≤ N0 := hNsPos N0 (List.mem_singleton_self _)
    unfold get_bounds bound_init_amounts
    rw [hbc]
    simp only [Bool.not_false, if_pos rfl, List.cons_append, List.nil_append,
      List.getD_cons_zero, List.getD_cons_succ, ← hblen]
    refine List.Forall₂.cons (boundOK_div_mul C0 Cd hC0 hCd) ?_
    refine List.Forall₂.cons ?_ ?_
    · refine ⟨?_, ?_⟩
      · calc N0 * (9 / 10) ≤ N0 * 1 := by
              apply mul_le_mul_of_nonneg_left (by norm_num) hN0pos
            _ = N0 := mul_one N0
      · intro u hu
        cases hu
        exact le_mul_of_one_le_right hN0pos hNd
    · exact List.Forall₂.cons hknOK (forall₂_replicate_b_bounds bs hbs)
  | true =>
    rw [hbc] at hNs
    norm_num at hNs
    obtain ⟨N1, N2, hN12⟩ := List.length_eq_two.mp hNs
    subst hN12
    subst hg
    have hN1pos : 0 ≤ N1 := hNsPos N1 (by simp)
    have hN2pos : 0 ≤ N2 := hNsPos N2 (by simp)
    unfold get_bounds bound_init_amounts
    rw [hbc]
    simp only [Bool.not_true, Bool.false_eq_true, if_neg, List.cons_append,
      List.nil_append, List.getD_cons_zero, List.getD_cons_succ, ← hblen,
      ite_false]
    refine List.Forall₂.cons (boundOK_div_mul C0 Cd hC0 hCd) ?_
    refine List.Forall₂.cons (boundOK_div_mul N1 Nd hN1pos hNd) ?_
    refine List.Forall₂.cons (boundOK_div_mul N2 Nd hN2pos hNd) ?_
    exact List.Forall₂.cons hknOK (forall₂_replicate_b_bounds bs hbs)

/-- Witness for C4 at a concrete single-nutrient guess vector. -/
theorem get_bounds_le_witness :
    List.Forall₂ boundOK [4, 10, 1/2, 3, 5]
      (get_bounds exPlate2 exModel1 [4, 10, 1/2, 3, 5] 2 2 10) :=
  get_bounds_le exPlate2 exModel1 [4, 10, 1/2, 3, 5] 4 (1/2) [10] [3, 5]
    2 2 10 rfl (by decide) (by norm_num) (by norm_num) (by norm_num)
    (by intro x hx; rcases List.mem_singleton.mp hx with h; rw [h]; norm_num)
    (by norm_num) (by norm_num)
    (by
      intro b hb
      rcases List.mem_cons.mp hb with h | h
      · rw [h]; norm_num
      · rcases List.mem_singleton.mp h with h'; rw [h']; norm_num)
    rfl

/-- `C_f_max` of `Guesser.quick_fit_imag_neighs`: the largest final
measured cell amount on the plate,
`max(plate.c_meas[-plate.no_cultures:])`. -/
def cFMax (plate : Plate) : ℚ :=
  listMax (lastN plate.no_cultures plate.c_meas)

/-- Lines 483–489 of `cans/guesser.py` (`Guesser.quick_fit_imag_neighs`):
the neighbour count computed when `no_neighs` is not caller-supplied,
`int(np.ceil(C_f_max / N_0_min))`, where `N_0_min` is the least
inferred initial nutrient guess when no plate-level parameters are
supplied, or the plate-level entry at the nutrient index otherwise. -/
def imagNoNeighs (plate : Plate) (model : Model) (areaRat : Option ℚ)
    (plate_lvl : Option (List ℚ)) : Except String ℤ :=
  match plate_lvl with
  | none => do
    let l ← guess_init_N plate model areaRat
    Except.ok ⌈cFMax plate / listMin l⌉
  | some pl => Except.ok ⌈cFMax plate / pl.getD (nIndex model) 0⌉

/-- `Guesser.quick_fit_imag_neighs` of `cans/guesser.py`.  The
per-culture nonlinear fit is external (`culture.fit_model` against the
`ImagNeighModel`); it is modelled by the oracle `fits`, which receives
what the code feeds the fitting stage — the first guess, the neighbour
count and the culture index — and returns that culture's estimate
vector, read back through `_process_quick_ests` for the growing
cultures.  `b_index` is the growth-rate index of the quick-fit model.
Guess construction, `plate_lvl` validation, the neighbour-count
computation and the aggregation call follow the source line by
line. -/
def quickFitImagNeighs (plate : Plate) (model : Model) (b_index : ℕ)
    (imag_neigh_params : List ℚ) (no_neighs : Option ℤ)
    (plate_lvl : Option (List ℚ)) (cRat areaRat : Option ℚ)
    (fits : List ℚ → ℤ → ℕ → List ℚ) (nan : ℚ) :
    Except String (List ℚ) := do
  let N_index := nIndex model
  let N_bc := nBc model
  let b_guess ← match imag_neigh_params.getLast? with
    | none => Except.error "IndexError: list index out of range"
    | some b => Except.ok b
  let first_guess ← match plate_lvl with
    | none => do
      let C0 ← guess_init_C plate cRat
      let N0 ← guess_init_N plate model areaRat
      Except.ok (C0 ++ N0 ++ [b_guess])
    | some pl =>
      if pl ≠ [] ∧ N_bc then
        Except.ok (pl.take (N_index + 2) ++ [b_guess])
      else if pl ≠ [] ∧ ¬N_bc then
        Except.ok (pl.take (N_index + 1) ++ [b_guess])
      else
        Except.error "ValueError: plate_lvl should evaluate True if provided."
  let nn ← match no_neighs with
    | some k => Except.ok k
    | none => imagNoNeighs plate model areaRat plate_lvl
  let all_ests := ((List.range plate.no_cultures).filter
    (fun i => plate.growers.contains i)).map (fits first_guess nn)
  processQuickEsts plate model b_index all_ests true b_guess
    "first_guess" plate_lvl cRat areaRat nan

/-- C8: a caller-supplied but empty plate-level parameter collection is
rejected: for every plate, model, fitting oracle and remaining
arguments, the call with `plate_lvl = some []` returns an error (the
result never depends on the oracle, so it fails before any fitting)
rather than falling back to inference. -/
theorem quick_fit_imag_neighs_empty_plate_lvl (plate : Plate)
    (model : Model) (b_index : ℕ) (imag_neigh_params : List ℚ)
    (no_neighs : Option ℤ) (cRat areaRat : Option ℚ)
    (fits : List ℚ → ℤ → ℕ → List ℚ) (nan : ℚ) :
    ∃ e, quickFitImagNeighs plate model b_index imag_neigh_params
      no_neighs (some []) cRat areaRat fits nan = Except.error e := by
  unfold quickFitImagNeighs
  cases h : imag_neigh_params.getLast? with
  | none => exact ⟨"IndexError: list index out of range", rfl⟩
  | some b =>
    exact ⟨"ValueError: plate_lvl should evaluate True if provided.", rfl⟩

theorem ceil_budget (C N : ℚ) (h : 0 < N) : C < (1 + (⌈C / N⌉ : ℚ)) * N := by
  have h1 : C / N ≤ ((⌈C / N⌉ : ℤ) : ℚ) := Int.le_ceil _
  have h2 : C / N < 1 + ((⌈C / N⌉ : ℤ) : ℚ) := by linarith
  calc C = C / N * N := (div_mul_cancel₀ C h.ne').symm
    _ < (1 + ((⌈C / N⌉ : ℤ) : ℚ)) * N := mul_lt_mul_of_pos_right h2 h

/-- C9: when `no_neighs` is not caller-supplied, the computed
neighbour count makes the nutrient budget
`(1 + no_neighs) × N_0_min` exceed the largest observed final cell
amount `C_f_max`, whenever `N_0_min > 0` (whichever branch supplied
`N_0_min`). -/
theorem imag_no_neighs_budget (plate : Plate) (model : Model)
    (areaRat : Option ℚ) (plate_lvl : Option (List ℚ)) (N0min : ℚ)
    (hmin : (match plate_lvl with
      | none => Except.map listMin (guess_init_N plate model areaRat)
      | some pl => Except.ok (pl.getD (nIndex model) 0)) =
      Except.ok N0min)
    (hpos : 0 < N0min) :
    ∃ nn : ℤ, imagNoNeighs plate model areaRat plate_lvl = Except.ok nn ∧
      cFMax plate < (1 + (nn : ℚ)) * N0min := by
  cases plate_lvl with
  | none =>
    cases hN : guess_init_N plate model areaRat with
    | error e => rw [hN] at hmin; exact absurd hmin (by simp [Except.map])
    | ok l =>
      rw [hN] at hmin
      have hl : listMin l = N0min := by
        simpa [Except.map] using hmin
      refine ⟨⌈cFMax plate / N0min⌉, ?_, ceil_budget _ _ hpos⟩
      unfold imagNoNeighs
      rw [hN]
      show Except.ok ⌈cFMax plate / listMin l⌉ = _
      rw [hl]
  | some pl =>
    have hl : pl.getD (nIndex model) 0 = N0min := by
      simpa using hmin
    refine ⟨⌈cFMax plate / N0min⌉, ?_, ceil_budget _ _ hpos⟩
    show Except.ok ⌈cFMax plate / pl.getD (nIndex model) 0⌉ = _
    rw [hl]

/-- Witness for C9 at a concrete plate and supplied plate-level
parameters. -/
theorem imag_no_neighs_budget_witness :
    ∃ nn : ℤ,
      imagNoNeighs exPlate3 exModel1 none (some [1/100, 2]) =
        Except.ok nn ∧
      cFMax exPlate3 < (1 + (nn : ℚ)) * 2 :=
  imag_no_neighs_budget exPlate3 exModel1 none (some [1/100, 2]) 2
    (by rfl) (by norm_num)

/-- C10: on the supplied-plate-level path the guesser's `C_ratio` and
`area_ratio` fields are never read: with `plate_lvl = some pl` the
result of `quick_fit_imag_neighs` is identical for any two settings of
the two fields, and for a non-empty `pl` (and non-empty
`imag_neigh_params`) the call with both fields embedded as `None`
returns a successful result — no `None`-arithmetic fault can occur on
this path. -/
theorem quick_fit_imag_neighs_no_ratio_read (plate : Plate)
    (model : Model) (b_index : ℕ) (imag_neigh_params : List ℚ)
    (no_neighs : Option ℤ) (pl : List ℚ)
    (fits : List ℚ → ℤ → ℕ → List ℚ) (nan : ℚ)
    (hpl : pl ≠ []) (hinp : imag_neigh_params ≠ []) :
    (∀ cRat1 areaRat1 cRat2 areaRat2,
      quickFitImagNeighs plate model b_index imag_neigh_params no_neighs
          (some pl) cRat1 areaRat1 fits nan =
        quickFitImagNeighs plate model b_index imag_neigh_params no_neighs
          (some pl) cRat2 areaRat2 fits nan) ∧
    ∃ v, quickFitImagNeighs plate model b_index imag_neigh_params
        no_neighs (some pl) none none fits nan = Except.ok v := by
  constructor
  · intro cRat1 areaRat1 cRat2 areaRat2
    rfl
  · obtain ⟨b, hbs⟩ : ∃ b, imag_neigh_params.getLast? = some b := by
      cases h : imag_neigh_params.getLast? with
      | none => exact absurd (List.getLast?_eq_none_iff.mp h) hinp
      | some b => exact ⟨b, rfl⟩
    obtain ⟨p, ps, rfl⟩ := List.exists_cons_of_ne_nil hpl
    unfold quickFitImagNeighs
    rw [hbs]
    cases hbc : nBc model with
    | true =>
      simp only [hbc]
      cases no_neighs with
      | some k => exact ⟨_, rfl⟩
      | none => exact ⟨_, rfl⟩
    | false =>
      simp only [hbc]
      cases no_neighs with
      | some k => exact ⟨_, rfl⟩
      | none => exact ⟨_, rfl⟩

/-- Witness for C10 at a concrete plate, model and oracle. -/
theorem quick_fit_imag_neighs_no_ratio_read_witness :
    (∀ cRat1 areaRat1 cRat2 areaRat2,
      quickFitImagNeighs exPlate3 exModel1 1 [1, 1, 1, 1, 2] none
          (some [1/100, 2]) cRat1 areaRat1 (fun _ _ _ => [0, 3]) 0 =
        quickFitImagNeighs exPlate3 exModel1 1 [1, 1, 1, 1, 2] none
          (some [1/100, 2]) cRat2 areaRat2 (fun _ _ _ => [0, 3]) 0) ∧
    ∃ v, quickFitImagNeighs exPlate3 exModel1 1 [1, 1, 1, 1, 2] none
        (some [1/100, 2]) none none (fun _ _ _ => [0, 3]) 0 =
      Except.ok v :=
  quick_fit_imag_neighs_no_ratio_read exPlate3 exModel1 1 [1, 1, 1, 1, 2]
    none [1/100, 2] (fun _ _ _ => [0, 3]) 0 (by simp) (by simp)
